import Mathlib

/-!
Shallow embedding of `invenio_groups/models.py` (Group / Membership /
GroupAdmin data models) and proofs about its membership and administration
operations.

Modelling conventions:
* The relational store is a `DB` record of lists of rows.  The SQLAlchemy
  session is a pair `Session` of the committed store and the session's
  draft view; `commit` checks the store's uniqueness constraints
  (unique group name, membership primary key `(id_user, id_group)`,
  `GroupAdmin` unique triple) and can additionally be hit by an injected
  storage fault (`fault : Bool`) standing for any non-integrity failure of
  `db.session.commit()`.  `rollback` resets the draft to the committed
  store, exactly like `db.session.rollback()`.
* Policy and state codes are `Char`s, exactly as in the source
  (`'O'/'A'/'C'`, `'P'/'M'/'A'`, `'A'/'U'/'M'`).
* `created`/`modified` timestamps and the `GroupAdmin` surrogate
  autoincrement `id` column are not modelled: no modelled operation reads
  them.  Group ids are autoincremented as `max id + 1`.
* `.one()` queries are embedded by `one`, which distinguishes the
  `NoResultFound` and `MultipleResultsFound` outcomes.
-/

namespace InvenioGroups

/-- Errors of the embedded storage layer: `IntegrityError` is a uniqueness
violation, `StorageFailure` any other commit failure, `NoResultFound` and
`MultipleResultsFound` the failures of `.one()`, `AssertionError` a failed
Python `assert`. -/
inductive DBError
  | IntegrityError
  | StorageFailure
  | NoResultFound
  | MultipleResultsFound
  | AssertionError
deriving DecidableEq, Repr

/-- `query.one()`: the unique row, `NoResultFound` on zero rows,
`MultipleResultsFound` on two or more. -/
def one {α : Type} (l : List α) : Except DBError α :=
  match l with
  | [] => Except.error DBError.NoResultFound
  | [x] => Except.ok x
  | _ :: _ :: _ => Except.error DBError.MultipleResultsFound

namespace SubscriptionPolicy

/-- Users can self-subscribe. -/
def OPEN : Char := 'O'

/-- Users can self-subscribe but requires administrator approval. -/
def APPROVAL : Char := 'A'

/-- Subscription is by administrator invitation only. -/
def CLOSED : Char := 'C'

/-- Validate subscription policy value. -/
def validate (policy : Char) : Bool :=
  [OPEN, APPROVAL, CLOSED].contains policy

end SubscriptionPolicy

namespace PrivacyPolicy

/-- Group membership is fully public. -/
def PUBLIC : Char := 'P'

/-- Group administrators and group members can view members. -/
def MEMBERS : Char := 'M'

/-- Group administrators can view members. -/
def ADMINS : Char := 'A'

/-- Validate privacy policy value. -/
def validate (policy : Char) : Bool :=
  [PUBLIC, MEMBERS, ADMINS].contains policy

end PrivacyPolicy

namespace MembershipState

/-- Pending admin verification. -/
def PENDING_ADMIN : Char := 'A'

/-- Pending user verification. -/
def PENDING_USER : Char := 'U'

/-- Active membership. -/
def ACTIVE : Char := 'M'

/-- Validate state value. -/
def validate (state : Char) : Bool :=
  [ACTIVE, PENDING_ADMIN, PENDING_USER].contains state

end MembershipState

/-- A row of the accounts `User` table (only the columns the modelled
operations read: the id and the email used by `invite_by_emails`). -/
structure User where
  id : Nat
  email : String
deriving DecidableEq, Repr

/-- A row of the `group` table. -/
structure Group where
  id : Nat
  name : String
  description : String
  is_managed : Bool
  privacy_policy : Char
  subscription_policy : Char
deriving DecidableEq, Repr

/-- A row of the `groupMEMBER` table; primary key `(id_user, id_group)`. -/
structure Membership where
  id_user : Nat
  id_group : Nat
  state : Char
deriving DecidableEq, Repr

/-- A row of the `groupADMIN` table with its generic `(admin_type,
admin_id)` reference; the surrogate autoincrement `id` is store-assigned
and read by no modelled operation, so it is omitted. -/
structure GroupAdmin where
  group_id : Nat
  admin_type : String
  admin_id : Nat
deriving DecidableEq, Repr

/-- The committed relational store. -/
structure DB where
  users : List User
  groups : List Group
  memberships : List Membership
  admins : List GroupAdmin
deriving DecidableEq, Repr

/-- An SQLAlchemy session over the store: `store` is the committed state,
`draft` the session's pending view (equal to `store` in a clean session). -/
structure Session where
  store : DB
  draft : DB
deriving DecidableEq, Repr

/-- An object that can act as a group admin or member: a `User` row or a
`Group` row (the two admin kinds of the polymorphic relation). -/
inductive Actor
  | user (u : User)
  | group (g : Group)
deriving DecidableEq, Repr

/-- `get_id()` of a user or group object. -/
def Actor.get_id : Actor → Nat
  | Actor.user u => u.id
  | Actor.group g => g.id

/-- `resolve_admin_type`: the discriminator is the class name, `"User"`
for user objects (also for `current_user` / `UserInfo` wrappers) and
`"Group"` for group objects. -/
def resolve_admin_type : Actor → String
  | Actor.user _ => "User"
  | Actor.group _ => "Group"

/-- The store-enforced uniqueness constraints: group primary key `id`,
unique group `name`, membership primary key `(id_user, id_group)` and the
`GroupAdmin` unique triple `(group_id, admin_type, admin_id)`. -/
def checkConstraints (db : DB) : Bool :=
  decide (db.groups.map Group.id).Nodup &&
  decide (db.groups.map Group.name).Nodup &&
  decide (db.memberships.map (fun m => (m.id_user, m.id_group))).Nodup &&
  decide (db.admins.map (fun a => (a.group_id, a.admin_type, a.admin_id))).Nodup

/-- `db.session.commit()`: fails with `IntegrityError` when the draft
violates a uniqueness constraint, with `StorageFailure` when the injected
fault fires, and otherwise makes the draft the committed store. -/
def commit (fault : Bool) (s : Session) : Except DBError Session :=
  if !(checkConstraints s.draft) then Except.error DBError.IntegrityError
  else if fault then Except.error DBError.StorageFailure
  else Except.ok { store := s.draft, draft := s.draft }

/-- `db.session.rollback()`: discard the draft. -/
def Session.rollback (s : Session) : Session :=
  { store := s.store, draft := s.store }

/-- Autoincrement of the group `id` column. -/
def freshGroupId (db : DB) : Nat :=
  db.groups.foldr (fun g acc => max g.id acc) 0 + 1

namespace Group

/-- `Group.get_by_name`: `.one()` on the rows of that name, catching only
`NoResultFound` (a `MultipleResultsFound` would propagate). -/
def get_by_name (db : DB) (name : String) : Except DBError (Option Group) :=
  match one (db.groups.filter (fun g => g.name == name)) with
  | Except.ok g => Except.ok (some g)
  | Except.error DBError.NoResultFound => Except.ok none
  | Except.error e => Except.error e

end Group

namespace Membership

/-- `Membership.get`: `.one()` on the rows for `(user, group)`, catching
every exception (absence and multiplicity alike) as `None`. -/
def get (db : DB) (group : Group) (user : Actor) : Option Membership :=
  match one (db.memberships.filter
      (fun m => m.id_user == user.get_id && m.id_group == group.id)) with
  | Except.ok m => some m
  | Except.error _ => none

/-- `Membership._filter`: restrict a query to one state (the Python
default is `MembershipState.ACTIVE`; callers that pass no `state` keyword
pass `ACTIVE` here).  Eager loading is presentation-only and not
modelled. -/
def filterByState (query : List Membership) (state : Char) : List Membership :=
  query.filter (fun m => m.state == state)

/-- `Membership.query_by_user`. -/
def query_by_user (db : DB) (user : Actor) (state : Char) : List Membership :=
  filterByState (db.memberships.filter (fun m => m.id_user == user.get_id)) state

/-- `Membership.query_by_group` (takes the group id, as the Python method
does after its `group_or_id` coercion; `state` is the `_filter` default
`ACTIVE` unless a caller passes another state). -/
def query_by_group (db : DB) (id_group : Nat) (with_invitations : Bool)
    (state : Char) : List Membership :=
  if !with_invitations then
    filterByState (db.memberships.filter (fun m => m.id_group == id_group)) state
  else
    db.memberships.filter (fun m => m.id_group == id_group &&
      (m.state == MembershipState.PENDING_USER ||
       m.state == MembershipState.ACTIVE))

end Membership

namespace GroupAdmin

/-- `GroupAdmin.get`: `.one()` on the rows for the resolved admin,
catching every exception as `None`. -/
def get (db : DB) (group : Group) (admin : Actor) : Option GroupAdmin :=
  match one (db.admins.filter (fun ga => ga.group_id == group.id &&
      ga.admin_id == admin.get_id &&
      ga.admin_type == resolve_admin_type admin)) with
  | Except.ok ga => some ga
  | Except.error _ => none

/-- `GroupAdmin.query_by_group`. -/
def query_by_group (db : DB) (group : Group) : List GroupAdmin :=
  db.admins.filter (fun ga => ga.group_id == group.id)

/-- `GroupAdmin.query_by_admin`. -/
def query_by_admin (db : DB) (admin : Actor) : List GroupAdmin :=
  db.admins.filter (fun ga => ga.admin_type == resolve_admin_type admin &&
    ga.admin_id == admin.get_id)

end GroupAdmin

namespace Group

/-- `Group.is_admin`. -/
def is_admin (db : DB) (g : Group) (admin : Actor) : Bool :=
  match GroupAdmin.get db g admin with
  | some _ => true
  | none => false

/-- `Group.is_member`. -/
def is_member (db : DB) (g : Group) (user : Actor) (with_pending : Bool) : Bool :=
  match Membership.get db g user with
  | some m => if with_pending then true else m.state == MembershipState.ACTIVE
  | none => false

/-- `Group.members_count`: `Membership.query_by_group(self).count()` —
no keyword arguments, so `_filter`'s default `state=ACTIVE` applies. -/
def members_count (db : DB) (g : Group) : Nat :=
  (Membership.query_by_group db g.id false MembershipState.ACTIVE).length

end Group

namespace Membership

/-- `Membership.query_requests`: direct pending requests on groups the
admin administers, united with pending requests on groups administered by
a group the admin is an active member of. -/
def query_requests (db : DB) (admin : Actor) : List Membership :=
  let q1 := (GroupAdmin.query_by_admin db admin).map GroupAdmin.group_id
  let q2 := db.memberships.filter (fun m =>
    m.state == MembershipState.PENDING_ADMIN && q1.contains m.id_group)
  let q3 := (query_by_user db admin MembershipState.ACTIVE).map Membership.id_group
  let q4 := (db.admins.filter (fun ga =>
    ga.admin_type == "Group" && q3.contains ga.admin_id)).map GroupAdmin.group_id
  let q5 := db.memberships.filter (fun m =>
    m.state == MembershipState.PENDING_ADMIN && q4.contains m.id_group)
  q2.union q5

/-- `Membership.create`: insert the row and commit; `IntegrityError` is
caught, rolled back and re-raised, any other failure propagates without a
rollback. -/
def create (fault : Bool) (s : Session) (group : Group) (user : Actor)
    (state : Char) : Except DBError Membership × Session :=
  let m : Membership := { id_user := user.get_id, id_group := group.id, state := state }
  let d := { s.draft with memberships := s.draft.memberships ++ [m] }
  match commit fault { store := s.store, draft := d } with
  | Except.ok s2 => (Except.ok m, s2)
  | Except.error DBError.IntegrityError =>
      (Except.error DBError.IntegrityError,
       Session.rollback { store := s.store, draft := d })
  | Except.error e => (Except.error e, { store := s.store, draft := d })

/-- `Membership.delete`: bulk-delete the `(group, user)` row and commit;
any exception is rolled back and re-raised. -/
def delete (fault : Bool) (s : Session) (group : Group) (user : Actor) :
    Except DBError Unit × Session :=
  let d := { s.draft with memberships := (s.draft.memberships.filter
      (fun m => !(m.id_group == group.id && m.id_user == user.get_id))) }
  match commit fault { store := s.store, draft := d } with
  | Except.ok s2 => (Except.ok (), s2)
  | Except.error e =>
      (Except.error e, Session.rollback { store := s.store, draft := d })

/-- `Membership.accept`: set the state to `ACTIVE` and commit.  There is
no `try`/`except`: a commit failure propagates with the session left
dirty (no rollback). -/
def accept (fault : Bool) (s : Session) (m : Membership) :
    Except DBError Unit × Session :=
  let m2 := { m with state := MembershipState.ACTIVE }
  let d := { s.draft with memberships := (s.draft.memberships.map
      (fun x => if x.id_user == m.id_user && x.id_group == m.id_group then m2 else x)) }
  match commit fault { store := s.store, draft := d } with
  | Except.ok s2 => (Except.ok (), s2)
  | Except.error e => (Except.error e, { store := s.store, draft := d })

/-- `Membership.reject`: delete the row and commit; any exception is
rolled back and re-raised. -/
def reject (fault : Bool) (s : Session) (m : Membership) :
    Except DBError Unit × Session :=
  let d := { s.draft with memberships := (s.draft.memberships.filter
      (fun x => !(x.id_user == m.id_user && x.id_group == m.id_group))) }
  match commit fault { store := s.store, draft := d } with
  | Except.ok s2 => (Except.ok (), s2)
  | Except.error e =>
      (Except.error e, Session.rollback { store := s.store, draft := d })

end Membership

namespace Group

/-- `Group.create`: asserts, then inserts the group row (column defaults
`privacy_policy=ADMINS`, `subscription_policy=CLOSED` when `None`) and a
`GroupAdmin` row per admin, and commits.  Only `IntegrityError` is caught
(rollback and re-raise); any other failure propagates without rollback. -/
def create (fault : Bool) (s : Session) (name : String) (description : String)
    (privacy_policy : Option Char) (subscription_policy : Option Char)
    (is_managed : Bool) (admins : List Actor) : Except DBError Group × Session :=
  if name == "" then (Except.error DBError.AssertionError, s)
  else if !(match privacy_policy with
            | none => true
            | some p => PrivacyPolicy.validate p) then
    (Except.error DBError.AssertionError, s)
  else if !(match subscription_policy with
            | none => true
            | some p => SubscriptionPolicy.validate p) then
    (Except.error DBError.AssertionError, s)
  else
    let obj : Group := {
      id := freshGroupId s.draft,
      name := name,
      description := description,
      is_managed := is_managed,
      privacy_policy := privacy_policy.getD PrivacyPolicy.ADMINS,
      subscription_policy := subscription_policy.getD SubscriptionPolicy.CLOSED }
    let newAdmins := admins.map (fun a =>
      { group_id := obj.id, admin_type := resolve_admin_type a,
        admin_id := a.get_id : GroupAdmin })
    let d := { s.draft with groups := s.draft.groups ++ [obj],
                            admins := s.draft.admins ++ newAdmins }
    match commit fault { store := s.store, draft := d } with
    | Except.ok s2 => (Except.ok obj, s2)
    | Except.error DBError.IntegrityError =>
        (Except.error DBError.IntegrityError,
         Session.rollback { store := s.store, draft := d })
    | Except.error e => (Except.error e, { store := s.store, draft := d })

/-- `Group.delete`: bulk-delete `Membership.query_by_group(self)` (which
carries `_filter`'s default `state=ACTIVE`), the group's `GroupAdmin`
rows, the rows where the group itself is the admin, then
`db.session.delete(self)` — whose ORM cascade `all, delete-orphan` on the
`members` and `admins` relationships removes the remaining membership and
admin rows of the group — and commit; any exception is rolled back and
re-raised. -/
def delete (fault : Bool) (s : Session) (g : Group) :
    Except DBError Unit × Session :=
  let d1 := { s.draft with memberships := (s.draft.memberships.filter
      (fun m => !(m.id_group == g.id && m.state == MembershipState.ACTIVE))) }
  let d2 := { d1 with admins := (d1.admins.filter
      (fun ga => !(ga.group_id == g.id))) }
  let d3 := { d2 with admins := (d2.admins.filter
      (fun ga => !(ga.admin_type == resolve_admin_type (Actor.group g) &&
                   ga.admin_id == g.id))) }
  let d4 := { d3 with
      groups := d3.groups.filter (fun x => !(x.id == g.id)),
      memberships := d3.memberships.filter (fun m => !(m.id_group == g.id)),
      admins := d3.admins.filter (fun ga => !(ga.group_id == g.id)) }
  match commit fault { store := s.store, draft := d4 } with
  | Except.ok s2 => (Except.ok (), s2)
  | Except.error e =>
      (Except.error e, Session.rollback { store := s.store, draft := d4 })

/-- `Group.update`: apply the non-`None` fields (invalid policy codes are
silently skipped), write the row back and commit.  There is no
`try`/`except`: a commit failure propagates with the session left dirty
(no rollback). -/
def update (fault : Bool) (s : Session) (g : Group) (name : Option String)
    (description : Option String) (privacy_policy : Option Char)
    (subscription_policy : Option Char) (is_managed : Option Bool) :
    Except DBError Group × Session :=
  let g1 := match name with
    | some n => { g with name := n }
    | none => g
  let g2 := match description with
    | some d => { g1 with description := d }
    | none => g1
  let g3 := match privacy_policy with
    | some p => if PrivacyPolicy.validate p then { g2 with privacy_policy := p } else g2
    | none => g2
  let g4 := match subscription_policy with
    | some p =>
        if SubscriptionPolicy.validate p then { g3 with subscription_policy := p } else g3
    | none => g3
  let g5 := match is_managed with
    | some b => { g4 with is_managed := b }
    | none => g4
  let d := { s.draft with groups := (s.draft.groups.map
      (fun x => if x.id == g.id then g5 else x)) }
  match commit fault { store := s.store, draft := d } with
  | Except.ok s2 => (Except.ok g5, s2)
  | Except.error e => (Except.error e, { store := s.store, draft := d })

/-- `Group.add_member`. -/
def add_member (fault : Bool) (s : Session) (g : Group) (user : Actor)
    (state : Char) : Except DBError Membership × Session :=
  Membership.create fault s g user state

/-- `Group.invite`: when `admin` is `None` or `is_admin` holds, delegate
to `add_member` with state `PENDING_USER`; otherwise return `None`. -/
def invite (fault : Bool) (s : Session) (g : Group) (user : Actor)
    (admin : Option Actor) : Except DBError (Option Membership) × Session :=
  match admin with
  | none =>
      match add_member fault s g user MembershipState.PENDING_USER with
      | (Except.ok m, s2) => (Except.ok (some m), s2)
      | (Except.error e, s2) => (Except.error e, s2)
  | some a =>
      if is_admin s.draft g a then
        match add_member fault s g user MembershipState.PENDING_USER with
        | (Except.ok m, s2) => (Except.ok (some m), s2)
        | (Except.error e, s2) => (Except.error e, s2)
      else (Except.ok none, s)

/-- `Group.invite_by_emails`: the loop body returns on its first
iteration in every case — when the head email resolves via `.one()` the
result of `invite` is returned, and any exception (unresolvable email or
a failure inside `invite`) is caught and `None` returned — so only the
first email is ever examined; an empty list falls through to `None`. -/
def invite_by_emails (fault : Bool) (s : Session) (g : Group)
    (emails : List String) : Except DBError (Option Membership) × Session :=
  match emails with
  | [] => (Except.ok none, s)
  | email :: _ =>
      match one (s.draft.users.filter (fun u => u.email == email)) with
      | Except.error _ => (Except.ok none, s)
      | Except.ok u =>
          match invite fault s g (Actor.user u) none with
          | (Except.ok r, s2) => (Except.ok r, s2)
          | (Except.error _, s2) => (Except.ok none, s2)

/-- `Group.subscribe`: `OPEN` adds an `ACTIVE` member (the `add_member`
default), `APPROVAL` a `PENDING_ADMIN` one, `CLOSED` returns `None` (as
does the implicit fall-through on any other code). -/
def subscribe (fault : Bool) (s : Session) (g : Group) (user : Actor) :
    Except DBError (Option Membership) × Session :=
  if g.subscription_policy == SubscriptionPolicy.OPEN then
    match add_member fault s g user MembershipState.ACTIVE with
    | (Except.ok m, s2) => (Except.ok (some m), s2)
    | (Except.error e, s2) => (Except.error e, s2)
  else if g.subscription_policy == SubscriptionPolicy.APPROVAL then
    match add_member fault s g user MembershipState.PENDING_ADMIN with
    | (Except.ok m, s2) => (Except.ok (some m), s2)
    | (Except.error e, s2) => (Except.error e, s2)
  else if g.subscription_policy == SubscriptionPolicy.CLOSED then
    (Except.ok none, s)
  else (Except.ok none, s)

end Group

end InvenioGroups

namespace InvenioGroups

/-! ## General lemmas about the constraint checker and commit -/

theorem checkConstraints_eq_true_iff (db : DB) :
    checkConstraints db = true ↔
      (db.groups.map Group.id).Nodup ∧
      (db.groups.map Group.name).Nodup ∧
      (db.memberships.map (fun m => (m.id_user, m.id_group))).Nodup ∧
      (db.admins.map (fun a => (a.group_id, a.admin_type, a.admin_id))).Nodup := by
  simp [checkConstraints, Bool.and_eq_true, and_assoc]

theorem checkConstraints_append_membership (db : DB) (m : Membership)
    (hc : checkConstraints db = true)
    (hfree : ∀ x ∈ db.memberships,
      ¬(x.id_user = m.id_user ∧ x.id_group = m.id_group)) :
    checkConstraints { db with memberships := db.memberships ++ [m] } = true := by
  rw [checkConstraints_eq_true_iff] at hc ⊢
  obtain ⟨h1, h2, h3, h4⟩ := hc
  refine ⟨h1, h2, ?_, h4⟩
  rw [List.map_append, List.nodup_append]
  refine ⟨h3, by simp, ?_⟩
  intro p hp hq
  simp only [List.map_cons, List.map_nil, List.mem_singleton] at hq
  obtain ⟨x, hx, hkey⟩ := List.mem_map.mp hp
  subst hq
  rw [Prod.mk.injEq] at hkey
  exact hfree x hx ⟨hkey.1, hkey.2⟩

/-- A successful `Membership.create` on a clean session: the new row is
returned and committed. -/
theorem membership_create_clean_ok (db : DB) (g : Group) (u : Actor) (st : Char)
    (hc : checkConstraints db = true)
    (hfree : ∀ x ∈ db.memberships, ¬(x.id_user = u.get_id ∧ x.id_group = g.id)) :
    Membership.create false ⟨db, db⟩ g u st =
      (Except.ok ⟨u.get_id, g.id, st⟩,
       ⟨{ db with memberships := db.memberships ++ [⟨u.get_id, g.id, st⟩] },
        { db with memberships := db.memberships ++ [⟨u.get_id, g.id, st⟩] }⟩) := by
  have hck := checkConstraints_append_membership db ⟨u.get_id, g.id, st⟩ hc hfree
  simp only [Membership.create, commit, hck, Bool.not_true, Bool.false_eq_true,
    if_false, Bool.not_eq_true']

/-- C1: `Group.subscribe` follows the subscription policy: `OPEN` creates
an `ACTIVE` membership, `APPROVAL` a `PENDING_ADMIN` one, `CLOSED` creates
nothing and returns `None`. -/
theorem subscribe_policy_matrix (db : DB) (g : Group) (u : Actor)
    (hc : checkConstraints db = true)
    (hfree : ∀ x ∈ db.memberships, ¬(x.id_user = u.get_id ∧ x.id_group = g.id)) :
    (g.subscription_policy = SubscriptionPolicy.OPEN →
       Group.subscribe false ⟨db, db⟩ g u =
         (Except.ok (some ⟨u.get_id, g.id, MembershipState.ACTIVE⟩),
          ⟨{ db with memberships :=
               db.memberships ++ [⟨u.get_id, g.id, MembershipState.ACTIVE⟩] },
           { db with memberships :=
               db.memberships ++ [⟨u.get_id, g.id, MembershipState.ACTIVE⟩] }⟩)) ∧
    (g.subscription_policy = SubscriptionPolicy.APPROVAL →
       Group.subscribe false ⟨db, db⟩ g u =
         (Except.ok (some ⟨u.get_id, g.id, MembershipState.PENDING_ADMIN⟩),
          ⟨{ db with memberships :=
               db.memberships ++ [⟨u.get_id, g.id, MembershipState.PENDING_ADMIN⟩] },
           { db with memberships :=
               db.memberships ++ [⟨u.get_id, g.id, MembershipState.PENDING_ADMIN⟩] }⟩)) ∧
    (g.subscription_policy = SubscriptionPolicy.CLOSED →
       Group.subscribe false ⟨db, db⟩ g u = (Except.ok none, ⟨db, db⟩)) := by
  refine ⟨?_, ?_, ?_⟩
  · intro hpol
    simp only [Group.subscribe, hpol, Group.add_member,
      membership_create_clean_ok db g u MembershipState.ACTIVE hc hfree]
    rfl
  · intro hpol
    simp only [Group.subscribe, hpol, Group.add_member,
      membership_create_clean_ok db g u MembershipState.PENDING_ADMIN hc hfree]
    rfl
  · intro hpol
    simp only [Group.subscribe, hpol]
    rfl

/-! ## Concrete fixtures for witnesses and counterexamples -/

/-- A sample user row. -/
def exUser : User := ⟨1, "alice@example.org"⟩

/-- A sample group with `OPEN` subscription policy. -/
def exOpen : Group :=
  ⟨10, "open-group", "", false, PrivacyPolicy.ADMINS, SubscriptionPolicy.OPEN⟩

/-- A sample group with `APPROVAL` subscription policy. -/
def exApproval : Group :=
  ⟨11, "approval-group", "", false, PrivacyPolicy.ADMINS, SubscriptionPolicy.APPROVAL⟩

/-- A sample group with `CLOSED` subscription policy. -/
def exClosed : Group :=
  ⟨12, "closed-group", "", false, PrivacyPolicy.ADMINS, SubscriptionPolicy.CLOSED⟩

/-- A sample store holding the three groups and the user, with no
membership and no admin rows. -/
def exDB : DB := ⟨[exUser], [exOpen, exApproval, exClosed], [], []⟩

/-- Witness for C1: the three policy branches evaluated on `exDB`. -/
theorem subscribe_policy_matrix_witness :
    Group.subscribe false ⟨exDB, exDB⟩ exOpen (Actor.user exUser) =
      (Except.ok (some ⟨1, 10, MembershipState.ACTIVE⟩),
       ⟨{ exDB with memberships := [⟨1, 10, MembershipState.ACTIVE⟩] },
        { exDB with memberships := [⟨1, 10, MembershipState.ACTIVE⟩] }⟩) ∧
    Group.subscribe false ⟨exDB, exDB⟩ exApproval (Actor.user exUser) =
      (Except.ok (some ⟨1, 11, MembershipState.PENDING_ADMIN⟩),
       ⟨{ exDB with memberships := [⟨1, 11, MembershipState.PENDING_ADMIN⟩] },
        { exDB with memberships := [⟨1, 11, MembershipState.PENDING_ADMIN⟩] }⟩) ∧
    Group.subscribe false ⟨exDB, exDB⟩ exClosed (Actor.user exUser) =
      (Except.ok none, ⟨exDB, exDB⟩) :=
  ⟨(subscribe_policy_matrix exDB exOpen (Actor.user exUser)
      (by decide) (by decide)).1 rfl,
   (subscribe_policy_matrix exDB exApproval (Actor.user exUser)
      (by decide) (by decide)).2.1 rfl,
   (subscribe_policy_matrix exDB exClosed (Actor.user exUser)
      (by decide) (by decide)).2.2 rfl⟩

/-- A store whose only membership row for `exApproval` is `PENDING_ADMIN`. -/
def pendingDB : DB :=
  ⟨[exUser], [exApproval], [⟨1, 11, MembershipState.PENDING_ADMIN⟩], []⟩

/-- C2 counterexample: `pendingDB` has exactly one membership row for the
group, yet `members_count` returns 0 — `query_by_group` silently applies
the `_filter` default `state=ACTIVE`, so pending rows are not counted. -/
theorem members_count_pending_counterexample :
    Group.members_count pendingDB exApproval = 0 ∧
    (pendingDB.memberships.filter (fun m => m.id_group == exApproval.id)).length = 1 := by
  decide

/-- C2 amended: `members_count` equals the number of membership rows of
the group in state `ACTIVE` (pending rows of either kind are not
counted). -/
theorem members_count_counts_active (db : DB) (g : Group) :
    Group.members_count db g =
      (db.memberships.filter (fun m =>
        m.id_group == g.id && m.state == MembershipState.ACTIVE)).length := by
  simp only [Group.members_count, Membership.query_by_group,
    Membership.filterByState, Bool.not_false, if_true, List.filter_filter]
  exact congrArg List.length (List.filter_congr (fun m _ => Bool.and_comm _ _))

/-- A commit with no injected fault and a constraint-satisfying draft
succeeds and promotes the draft to the store. -/
theorem commit_ok (s : Session) (h : checkConstraints s.draft = true) :
    commit false s = Except.ok ⟨s.draft, s.draft⟩ := by
  simp [commit, h]

/-- The uniqueness constraints survive row deletion. -/
theorem checkConstraints_of_sublists (db db2 : DB)
    (hg : List.Sublist db2.groups db.groups)
    (hm : List.Sublist db2.memberships db.memberships)
    (ha : List.Sublist db2.admins db.admins)
    (hc : checkConstraints db = true) :
    checkConstraints db2 = true := by
  rw [checkConstraints_eq_true_iff] at hc ⊢
  obtain ⟨h1, h2, h3, h4⟩ := hc
  exact ⟨h1.sublist (hg.map _), h2.sublist (hg.map _),
    h3.sublist (hm.map _), h4.sublist (ha.map _)⟩

/-- C3: `Group.delete` removes the group row, every membership row of the
group (the bulk delete takes the `ACTIVE` ones, the ORM cascade the
rest), every `GroupAdmin` row of the group and every `GroupAdmin` row in
which the group (admin type `"Group"`) administers another group;
afterwards `get_by_name` on the group name finds nothing. -/
theorem group_delete_removes_all (db : DB) (g : Group)
    (hc : checkConstraints db = true) (hg : g ∈ db.groups) :
    ∃ db2 : DB,
      Group.delete false ⟨db, db⟩ g = (Except.ok (), ⟨db2, db2⟩) ∧
      (∀ m ∈ db2.memberships, m.id_group ≠ g.id) ∧
      (∀ ga ∈ db2.admins, ga.group_id ≠ g.id) ∧
      (∀ ga ∈ db2.admins, ¬(ga.admin_type = "Group" ∧ ga.admin_id = g.id)) ∧
      (∀ x ∈ db2.groups, x.id ≠ g.id) ∧
      Group.get_by_name db2 g.name = Except.ok none := by
  refine ⟨⟨db.users,
    db.groups.filter (fun x => !(x.id == g.id)),
    ((db.memberships.filter
        (fun m => !(m.id_group == g.id && m.state == MembershipState.ACTIVE))).filter
      (fun m => !(m.id_group == g.id))),
    (((db.admins.filter (fun ga => !(ga.group_id == g.id))).filter
        (fun ga => !(ga.admin_type == resolve_admin_type (Actor.group g) &&
                     ga.admin_id == g.id))).filter
      (fun ga => !(ga.group_id == g.id)))⟩, ?_, ?_, ?_, ?_, ?_, ?_⟩
  · simp only [Group.delete]
    rw [commit_ok]
    exact checkConstraints_of_sublists db _
      (List.filter_sublist _)
      ((List.filter_sublist _).trans (List.filter_sublist _))
      (((List.filter_sublist _).trans (List.filter_sublist _)).trans
        (List.filter_sublist _)) hc
  · intro m hm
    have := (List.mem_filter.mp hm).2
    simpa using this
  · intro ga hga
    have := (List.mem_filter.mp hga).2
    simpa using this
  · intro ga hga
    have := (List.mem_filter.mp (List.mem_filter.mp hga).1).2
    simp only [resolve_admin_type, Bool.not_eq_true', Bool.and_eq_false_iff] at this
    rintro ⟨ht, hi⟩
    rcases this with h | h
    · exact absurd ht (by simpa using h)
    · exact absurd hi (by simpa using h)
  · intro x hx
    have := (List.mem_filter.mp hx).2
    simpa using this
  · have hnodup : (db.groups.map Group.name).Nodup :=
      ((checkConstraints_eq_true_iff db).mp hc).2.1
    have hinj := List.inj_on_of_nodup_map hnodup
    have hempty : (db.groups.filter (fun x => !(x.id == g.id))).filter
        (fun x => x.name == g.name) = [] := by
      apply List.filter_eq_nil_iff.mpr
      intro x hx
      have hxid : x.id ≠ g.id := by simpa using (List.mem_filter.mp hx).2
      have hxmem : x ∈ db.groups := (List.mem_filter.mp hx).1
      simp only [beq_iff_eq]
      intro hname
      exact hxid (congrArg Group.id (hinj hxmem hg hname))
    simp only [Group.get_by_name]
    rw [hempty]
    rfl

/-- A store where `exOpen` has one pending and one active member and is
both administered by `exApproval` and an admin of `exApproval`. -/
def delDB : DB :=
  ⟨[exUser], [exOpen, exApproval],
   [⟨1, 10, MembershipState.PENDING_ADMIN⟩, ⟨2, 10, MembershipState.ACTIVE⟩,
    ⟨1, 11, MembershipState.ACTIVE⟩],
   [⟨10, "Group", 11⟩, ⟨11, "Group", 10⟩, ⟨10, "User", 1⟩]⟩

/-- Witness for C3 on `delDB`. -/
theorem group_delete_removes_all_witness :
    ∃ db2 : DB,
      Group.delete false ⟨delDB, delDB⟩ exOpen = (Except.ok (), ⟨db2, db2⟩) ∧
      (∀ m ∈ db2.memberships, m.id_group ≠ exOpen.id) ∧
      (∀ ga ∈ db2.admins, ga.group_id ≠ exOpen.id) ∧
      (∀ ga ∈ db2.admins, ¬(ga.admin_type = "Group" ∧ ga.admin_id = exOpen.id)) ∧
      (∀ x ∈ db2.groups, x.id ≠ exOpen.id) ∧
      Group.get_by_name db2 exOpen.name = Except.ok none :=
  group_delete_removes_all delDB exOpen (by decide) (by decide)

theorem one_error_of_length_ne_one {α : Type} (l : List α) (h : l.length ≠ 1) :
    ∃ e, one l = Except.error e :=
  match l with
  | [] => ⟨DBError.NoResultFound, rfl⟩
  | [_] => absurd rfl h
  | _ :: _ :: _ => ⟨DBError.MultipleResultsFound, rfl⟩

/-- C4 counterexample: with only the user `alice@example.org` in the
store, `invite_by_emails ["bob@example.org", "alice@example.org"]`
returns `None` and creates nothing — the unresolvable first email makes
the `except` branch return before the resolvable second email is ever
looked at, although the claim demands that Alice be invited. -/
theorem invite_by_emails_counterexample :
    Group.invite_by_emails false ⟨exDB, exDB⟩ exOpen
      ["bob@example.org", "alice@example.org"] = (Except.ok none, ⟨exDB, exDB⟩) ∧
    (∃ u ∈ exDB.users, u.email = "alice@example.org") ∧
    exDB.memberships = [] :=
  ⟨rfl, ⟨exUser, by decide, rfl⟩, rfl⟩

/-- C4 amended: `invite_by_emails` examines only the head of the email
list: the tail never changes the result; an unresolvable head email
yields `None` with the store untouched; a head email resolving to exactly
one user invites that user (a `PENDING_USER` membership), the remaining
emails being ignored. -/
theorem invite_by_emails_first_email_only (fault : Bool) (db : DB) (g : Group)
    (e : String) (rest : List String) :
    (Group.invite_by_emails fault ⟨db, db⟩ g (e :: rest) =
       Group.invite_by_emails fault ⟨db, db⟩ g [e]) ∧
    ((db.users.filter (fun u => u.email == e)).length ≠ 1 →
       Group.invite_by_emails fault ⟨db, db⟩ g (e :: rest) =
         (Except.ok none, ⟨db, db⟩)) ∧
    (∀ u : User, db.users.filter (fun x => x.email == e) = [u] →
       checkConstraints db = true →
       (∀ x ∈ db.memberships, ¬(x.id_user = u.id ∧ x.id_group = g.id)) →
       Group.invite_by_emails false ⟨db, db⟩ g (e :: rest) =
         (Except.ok (some ⟨u.id, g.id, MembershipState.PENDING_USER⟩),
          ⟨{ db with memberships :=
               db.memberships ++ [⟨u.id, g.id, MembershipState.PENDING_USER⟩] },
           { db with memberships :=
               db.memberships ++ [⟨u.id, g.id, MembershipState.PENDING_USER⟩] }⟩)) := by
  refine ⟨rfl, ?_, ?_⟩
  · intro hlen
    obtain ⟨err, herr⟩ := one_error_of_length_ne_one _ hlen
    simp only [Group.invite_by_emails]
    rw [herr]
  · intro u hu hc hfree
    have hcreate := membership_create_clean_ok db g (Actor.user u)
      MembershipState.PENDING_USER hc hfree
    simp only [Group.invite_by_emails, hu, one, Group.invite, Group.add_member,
      hcreate]
    rfl

/-- C5 counterexample: `Group.update` under a commit failure re-raises
the error but performs no rollback: the session draft still carries the
renamed group while the committed store does not, so the claimed
"rolled back on any failure" atomicity does not hold for `update`. -/
theorem update_no_rollback_counterexample :
    (Group.update true ⟨exDB, exDB⟩ exOpen (some "renamed") none none none
        none).1 = Except.error DBError.StorageFailure ∧
    (Group.update true ⟨exDB, exDB⟩ exOpen (some "renamed") none none none
        none).2.draft ≠
      (Group.update true ⟨exDB, exDB⟩ exOpen (some "renamed") none none none
        none).2.store :=
  ⟨rfl, by decide⟩

theorem commit_eq_ok_elim {fault : Bool} {s s2 : Session}
    (h : commit fault s = Except.ok s2) : s2 = ⟨s.draft, s.draft⟩ := by
  unfold commit at h
  split at h
  · cases h
  · split at h
    · cases h
    · cases h
      rfl

/-- C5 amended: `Group.delete`, `Membership.delete` and
`Membership.reject` roll the session back on any commit failure and
re-raise it; `Group.create` and `Membership.create` roll back on
`IntegrityError` (the only failure they catch); `Group.update` and
`Membership.accept` re-raise any failure with the committed store still
unchanged at that point, but perform no rollback (see the
counterexample: the session keeps the uncommitted changes). -/
theorem mutating_ops_transaction_discipline (fault : Bool) (db : DB)
    (g : Group) (m : Membership) (u : Actor) (nm : Option String)
    (ds : Option String) (pp : Option Char) (sp : Option Char)
    (im : Option Bool) (name2 : String) (desc2 : String) (adm : List Actor)
    (st : Char) :
    (∀ e, (Group.delete fault ⟨db, db⟩ g).1 = Except.error e →
       (Group.delete fault ⟨db, db⟩ g).2 = ⟨db, db⟩) ∧
    (∀ e, (Membership.delete fault ⟨db, db⟩ g u).1 = Except.error e →
       (Membership.delete fault ⟨db, db⟩ g u).2 = ⟨db, db⟩) ∧
    (∀ e, (Membership.reject fault ⟨db, db⟩ m).1 = Except.error e →
       (Membership.reject fault ⟨db, db⟩ m).2 = ⟨db, db⟩) ∧
    ((Group.create fault ⟨db, db⟩ name2 desc2 pp sp false adm).1 =
        Except.error DBError.IntegrityError →
       (Group.create fault ⟨db, db⟩ name2 desc2 pp sp false adm).2 = ⟨db, db⟩) ∧
    ((Membership.create fault ⟨db, db⟩ g u st).1 =
        Except.error DBError.IntegrityError →
       (Membership.create fault ⟨db, db⟩ g u st).2 = ⟨db, db⟩) ∧
    (∀ e, (Group.update fault ⟨db, db⟩ g nm ds pp sp im).1 = Except.error e →
       (Group.update fault ⟨db, db⟩ g nm ds pp sp im).2.store = db) ∧
    (∀ e, (Membership.accept fault ⟨db, db⟩ m).1 = Except.error e →
       (Membership.accept fault ⟨db, db⟩ m).2.store = db) := by
  refine ⟨?_, ?_, ?_, ?_, ?_, ?_, ?_⟩
  · intro e h
    simp only [Group.delete] at h ⊢
    split at h
    · cases h
    · rfl
  · intro e h
    simp only [Membership.delete] at h ⊢
    split at h
    · cases h
    · rfl
  · intro e h
    simp only [Membership.reject] at h ⊢
    split at h
    · cases h
    · rfl
  · simp only [Group.create]
    split
    · intro _
      rfl
    · split
      · intro _
        rfl
      · split
        · intro _
          rfl
        · split
          · intro h
            simp at h
          · intro _
            rfl
          · rename_i hno hheq
            intro h
            injection h with he
            first
            | exact absurd he.symm hno
            | exact absurd he hno
  · simp only [Membership.create]
    split
    · intro h
      simp at h
    · intro _
      rfl
    · rename_i hno hheq
      intro h
      injection h with he
      first
      | exact absurd he.symm hno
      | exact absurd he hno
  · intro e h
    simp only [Group.update] at h ⊢
    split at h
    · rename_i s2 heq
      cases h
    · rfl
  · intro e h
    simp only [Membership.accept] at h ⊢
    split at h
    · cases h
    · rfl

/-- Witness for the amended C4: on `exDB` a resolvable head email invites
Alice and the tail is ignored; an unresolvable head email yields `None`. -/
theorem invite_by_emails_first_email_only_witness :
    Group.invite_by_emails false ⟨exDB, exDB⟩ exOpen
        ["alice@example.org", "bob@example.org"] =
      (Except.ok (some ⟨1, 10, MembershipState.PENDING_USER⟩),
       ⟨{ exDB with memberships := [⟨1, 10, MembershipState.PENDING_USER⟩] },
        { exDB with memberships := [⟨1, 10, MembershipState.PENDING_USER⟩] }⟩) ∧
    Group.invite_by_emails false ⟨exDB, exDB⟩ exOpen
        ["bob@example.org", "alice@example.org"] = (Except.ok none, ⟨exDB, exDB⟩) :=
  ⟨(invite_by_emails_first_email_only false exDB exOpen "alice@example.org"
      ["bob@example.org"]).2.2 exUser (by decide) (by decide) (by decide),
   (invite_by_emails_first_email_only false exDB exOpen "bob@example.org"
      ["alice@example.org"]).2.1 (by decide)⟩

/-- A store already holding an active membership of `exUser` in `exOpen`. -/
def memberDB : DB := ⟨[exUser], [exOpen], [⟨1, 10, MembershipState.ACTIVE⟩], []⟩

/-- Witness for the amended C5: a faulted `Group.delete` is rolled back,
a duplicate `Membership.create` is rolled back on its `IntegrityError`,
and a faulted `Membership.accept` re-raises with the store unchanged. -/
theorem mutating_ops_transaction_discipline_witness :
    (Group.delete true ⟨exDB, exDB⟩ exOpen).2 = ⟨exDB, exDB⟩ ∧
    (Membership.create false ⟨memberDB, memberDB⟩ exOpen (Actor.user exUser)
        MembershipState.PENDING_USER).2 = ⟨memberDB, memberDB⟩ ∧
    (Membership.accept true ⟨exDB, exDB⟩
        ⟨1, 10, MembershipState.PENDING_USER⟩).2.store = exDB :=
  ⟨(mutating_ops_transaction_discipline true exDB exOpen
      ⟨1, 10, MembershipState.PENDING_USER⟩ (Actor.user exUser) none none none
      none none "n" "" [] MembershipState.ACTIVE).1 DBError.StorageFailure rfl,
   (mutating_ops_transaction_discipline false memberDB exOpen
      ⟨1, 10, MembershipState.PENDING_USER⟩ (Actor.user exUser) none none none
      none none "n" "" [] MembershipState.PENDING_USER).2.2.2.2.1 rfl,
   (mutating_ops_transaction_discipline true exDB exOpen
      ⟨1, 10, MembershipState.PENDING_USER⟩ (Actor.user exUser) none none none
      none none "n" "" [] MembershipState.ACTIVE).2.2.2.2.2.2
      DBError.StorageFailure rfl⟩

theorem le_foldr_max (l : List Group) (x : Group) (hx : x ∈ l) :
    x.id ≤ l.foldr (fun g acc => max g.id acc) 0 := by
  induction l with
  | nil => cases hx
  | cons a t ih =>
    cases hx with
    | head => exact le_max_left _ _
    | tail _ h => exact le_trans (ih h) (le_max_right _ _)

theorem freshGroupId_fresh (db : DB) (x : Group) (hx : x ∈ db.groups) :
    x.id ≠ freshGroupId db := by
  have := le_foldr_max db.groups x hx
  simp only [freshGroupId]
  omega

theorem checkConstraints_append_group (db : DB) (g : Group)
    (hc : checkConstraints db = true)
    (hname : ∀ x ∈ db.groups, x.name ≠ g.name)
    (hid : ∀ x ∈ db.groups, x.id ≠ g.id) :
    checkConstraints { db with groups := db.groups ++ [g] } = true := by
  rw [checkConstraints_eq_true_iff] at hc ⊢
  obtain ⟨h1, h2, h3, h4⟩ := hc
  refine ⟨?_, ?_, h3, h4⟩
  · rw [List.map_append, List.nodup_append]
    refine ⟨h1, by simp, ?_⟩
    intro p hp hq
    simp only [List.map_cons, List.map_nil, List.mem_singleton] at hq
    obtain ⟨x, hx, hkey⟩ := List.mem_map.mp hp
    exact hid x hx (hq ▸ hkey)
  · rw [List.map_append, List.nodup_append]
    refine ⟨h2, by simp, ?_⟩
    intro p hp hq
    simp only [List.map_cons, List.map_nil, List.mem_singleton] at hq
    obtain ⟨x, hx, hkey⟩ := List.mem_map.mp hp
    exact hname x hx (hq ▸ hkey)

/-- A commit whose draft violates a uniqueness constraint fails with
`IntegrityError` whatever the fault flag. -/
theorem commit_integrity (fault : Bool) (s : Session)
    (h : checkConstraints s.draft = false) :
    commit fault s = Except.error DBError.IntegrityError := by
  simp [commit, h]

/-- C6: creating a group with a fresh valid name succeeds and
`get_by_name` finds it; a second `create` with the same name fails with
`IntegrityError`, is rolled back and leaves the first group in place. -/
theorem create_unique_name (db : DB) (X : String)
    (hc : checkConstraints db = true) (hX : X ≠ "")
    (hfree : ∀ g ∈ db.groups, g.name ≠ X) :
    ∃ (g : Group) (db2 : DB),
      Group.create false ⟨db, db⟩ X "" none none false [] =
        (Except.ok g, ⟨db2, db2⟩) ∧
      g.name = X ∧
      Group.get_by_name db2 X = Except.ok (some g) ∧
      Group.create false ⟨db2, db2⟩ X "" none none false [] =
        (Except.error DBError.IntegrityError, ⟨db2, db2⟩) := by
  have hX' : (X == "") = false := beq_eq_false_iff_ne.mpr hX
  refine ⟨⟨freshGroupId db, X, "", false, PrivacyPolicy.ADMINS,
      SubscriptionPolicy.CLOSED⟩,
    ⟨db.users,
     db.groups ++ [⟨freshGroupId db, X, "", false, PrivacyPolicy.ADMINS,
       SubscriptionPolicy.CLOSED⟩],
     db.memberships, db.admins⟩, ?_, rfl, ?_, ?_⟩
  · simp only [Group.create, hX', Bool.false_eq_true, if_false, List.map_nil,
      List.append_nil, Option.getD_none]
    rw [commit_ok]
    all_goals try rfl
    exact checkConstraints_append_group db
      ⟨freshGroupId db, X, "", false, PrivacyPolicy.ADMINS,
        SubscriptionPolicy.CLOSED⟩ hc
      (fun x hx => hfree x hx) (fun x hx => freshGroupId_fresh db x hx)
  · simp only [Group.get_by_name]
    have hfil : (db.groups ++ [(⟨freshGroupId db, X, "", false,
        PrivacyPolicy.ADMINS, SubscriptionPolicy.CLOSED⟩ : Group)]).filter
          (fun g => g.name == X) =
        [⟨freshGroupId db, X, "", false, PrivacyPolicy.ADMINS,
          SubscriptionPolicy.CLOSED⟩] := by
      rw [List.filter_append]
      have h0 : db.groups.filter (fun g => g.name == X) = [] :=
        List.filter_eq_nil_iff.mpr
          (fun x hx => by simpa using hfree x hx)
      rw [h0]
      simp
    rw [hfil]
    rfl
  · simp only [Group.create, hX', Bool.false_eq_true, if_false, List.map_nil,
      List.append_nil, Option.getD_none]
    rw [commit_integrity]
    all_goals try rfl
    apply Bool.eq_false_iff.mpr
    intro h
    rw [checkConstraints_eq_true_iff] at h
    obtain ⟨-, h2, -, -⟩ := h
    rw [List.map_append, List.nodup_append] at h2
    exact h2.2.2
      (show X ∈ _ by rw [List.map_append]; exact List.mem_append_right _ (by simp))
      (by simp)
/-- C7: `query_requests` returns exactly the `PENDING_ADMIN` membership
rows of groups the admin administers directly, together with those of
groups administered (admin type `"Group"`) by a group the admin is an
`ACTIVE` member of; in particular a pending request on a group reaches
every active member of an administering group. -/
theorem query_requests_characterization (db : DB) (a : Actor) :
    (∀ m, m ∈ Membership.query_requests db a ↔
      (m ∈ db.memberships ∧ m.state = MembershipState.PENDING_ADMIN ∧
       ((∃ ga ∈ db.admins, ga.admin_type = resolve_admin_type a ∧
           ga.admin_id = a.get_id ∧ ga.group_id = m.id_group) ∨
        (∃ ga ∈ db.admins, ga.admin_type = "Group" ∧ ga.group_id = m.id_group ∧
          ∃ m2 ∈ db.memberships, m2.id_user = a.get_id ∧
            m2.state = MembershipState.ACTIVE ∧ m2.id_group = ga.admin_id)))) ∧
    (∀ (g1id g2id : Nat) (m : Membership),
       (⟨g1id, "Group", g2id⟩ : GroupAdmin) ∈ db.admins →
       (⟨a.get_id, g2id, MembershipState.ACTIVE⟩ : Membership) ∈ db.memberships →
       m ∈ db.memberships → m.state = MembershipState.PENDING_ADMIN →
       m.id_group = g1id → m ∈ Membership.query_requests db a) := by
  have husplit : ∀ (l1 l2 : List Membership) (x : Membership),
      x ∈ l1.union l2 ↔ x ∈ l1 ∨ x ∈ l2 := fun l1 l2 x => List.mem_union_iff
  have hmain : ∀ m, m ∈ Membership.query_requests db a ↔
      (m ∈ db.memberships ∧ m.state = MembershipState.PENDING_ADMIN ∧
       ((∃ ga ∈ db.admins, ga.admin_type = resolve_admin_type a ∧
           ga.admin_id = a.get_id ∧ ga.group_id = m.id_group) ∨
        (∃ ga ∈ db.admins, ga.admin_type = "Group" ∧ ga.group_id = m.id_group ∧
          ∃ m2 ∈ db.memberships, m2.id_user = a.get_id ∧
            m2.state = MembershipState.ACTIVE ∧ m2.id_group = ga.admin_id))) := by
    intro m
    simp only [Membership.query_requests]
    rw [husplit]
    simp only [List.mem_filter, List.mem_map, Bool.and_eq_true, beq_iff_eq,
      List.contains, List.elem_iff, GroupAdmin.query_by_admin,
      Membership.query_by_user, Membership.filterByState, List.filter_filter]
    constructor
    · rintro (⟨hm, hs, hgr⟩ | ⟨hm, hs, hgr⟩)
      · exact ⟨hm, hs, Or.inl (by aesop)⟩
      · exact ⟨hm, hs, Or.inr (by aesop)⟩
    · rintro ⟨hm, hs, hga | hga⟩
      · exact Or.inl ⟨hm, hs, by aesop⟩
      · exact Or.inr ⟨hm, hs, by aesop⟩
  refine ⟨hmain, ?_⟩
  intro g1id g2id m hga hm2 hm hs hgr
  exact (hmain m).mpr ⟨hm, hs, Or.inr ⟨⟨g1id, "Group", g2id⟩, hga, rfl, hgr.symm,
    ⟨a.get_id, g2id, MembershipState.ACTIVE⟩, hm2, rfl, rfl, rfl⟩⟩

/-- A store where `exUser` administers `exOpen` directly and `exApproval`
administers `exClosed`, `exUser` being an active member of `exApproval`;
both `exOpen` and `exClosed` carry a pending request by user 7. -/
def reqDB : DB :=
  ⟨[exUser], [exOpen, exApproval, exClosed],
   [⟨1, 11, MembershipState.ACTIVE⟩,
    ⟨7, 10, MembershipState.PENDING_ADMIN⟩,
    ⟨7, 12, MembershipState.PENDING_ADMIN⟩,
    ⟨7, 11, MembershipState.PENDING_USER⟩],
   [⟨10, "User", 1⟩, ⟨12, "Group", 11⟩]⟩

/-- Witness for C7 on `reqDB`: the delegated pending request on
`exClosed` is visible to `exUser`. -/
theorem query_requests_characterization_witness :
    (⟨7, 12, MembershipState.PENDING_ADMIN⟩ : Membership) ∈
      Membership.query_requests reqDB (Actor.user exUser) :=
  (query_requests_characterization reqDB (Actor.user exUser)).2 12 11
    ⟨7, 12, MembershipState.PENDING_ADMIN⟩ (by decide) (by decide) (by decide)
    (by decide) (by decide)

/-- C8: `invite` creates a `PENDING_USER` membership exactly when the
`admin` argument is omitted or is an admin of the group; a non-admin
`admin` argument yields `None` with the store untouched (no error). -/
theorem invite_pending_user_iff_admin (db : DB) (g : Group) (u : Actor)
    (X : Actor) (hc : checkConstraints db = true)
    (hfree : ∀ x ∈ db.memberships, ¬(x.id_user = u.get_id ∧ x.id_group = g.id)) :
    (Group.invite false ⟨db, db⟩ g u none =
       (Except.ok (some ⟨u.get_id, g.id, MembershipState.PENDING_USER⟩),
        ⟨{ db with memberships :=
             db.memberships ++ [⟨u.get_id, g.id, MembershipState.PENDING_USER⟩] },
         { db with memberships :=
             db.memberships ++ [⟨u.get_id, g.id, MembershipState.PENDING_USER⟩] }⟩)) ∧
    (Group.is_admin db g X = true →
       Group.invite false ⟨db, db⟩ g u (some X) =
         (Except.ok (some ⟨u.get_id, g.id, MembershipState.PENDING_USER⟩),
          ⟨{ db with memberships :=
               db.memberships ++ [⟨u.get_id, g.id, MembershipState.PENDING_USER⟩] },
           { db with memberships :=
               db.memberships ++ [⟨u.get_id, g.id, MembershipState.PENDING_USER⟩] }⟩)) ∧
    (Group.is_admin db g X = false →
       Group.invite false ⟨db, db⟩ g u (some X) = (Except.ok none, ⟨db, db⟩)) := by
  have hcreate := membership_create_clean_ok db g u MembershipState.PENDING_USER hc hfree
  refine ⟨?_, ?_, ?_⟩
  · simp only [Group.invite, Group.add_member, hcreate]
  · intro h
    simp only [Group.invite, Group.add_member, h, if_true, hcreate]
  · intro h
    simp only [Group.invite, Group.add_member, h, Bool.false_eq_true, if_false]

/-- A store where `exUser` administers `exOpen` but user 2 does not. -/
def admDB : DB :=
  ⟨[exUser, ⟨2, "bob@example.org"⟩], [exOpen], [], [⟨10, "User", 1⟩]⟩

/-- Witness for C8 on `admDB`: omitted admin and admin `exUser` create
the `PENDING_USER` row, non-admin user 2 creates nothing. -/
theorem invite_pending_user_iff_admin_witness :
    (Group.invite false ⟨admDB, admDB⟩ exOpen (Actor.user ⟨2, "bob@example.org"⟩)
        (some (Actor.user exUser)) =
      (Except.ok (some ⟨2, 10, MembershipState.PENDING_USER⟩),
       ⟨{ admDB with memberships := [⟨2, 10, MembershipState.PENDING_USER⟩] },
        { admDB with memberships := [⟨2, 10, MembershipState.PENDING_USER⟩] }⟩)) ∧
    (Group.invite false ⟨admDB, admDB⟩ exOpen (Actor.user exUser)
        (some (Actor.user ⟨2, "bob@example.org"⟩)) =
      (Except.ok none, ⟨admDB, admDB⟩)) :=
  ⟨(invite_pending_user_iff_admin admDB exOpen
      (Actor.user ⟨2, "bob@example.org"⟩) (Actor.user exUser)
      (by decide) (by decide)).2.1 (by decide),
   (invite_pending_user_iff_admin admDB exOpen (Actor.user exUser)
      (Actor.user ⟨2, "bob@example.org"⟩)
      (by decide) (by decide)).2.2 (by decide)⟩

theorem checkConstraints_map_membership_keyfix (db : DB)
    (f : Membership → Membership)
    (hf : ∀ x, (f x).id_user = x.id_user ∧ (f x).id_group = x.id_group)
    (hc : checkConstraints db = true) :
    checkConstraints { db with memberships := db.memberships.map f } = true := by
  rw [checkConstraints_eq_true_iff] at hc ⊢
  obtain ⟨h1, h2, h3, h4⟩ := hc
  refine ⟨h1, h2, ?_, h4⟩
  rw [List.map_map]
  have hcomp : ((fun m : Membership => (m.id_user, m.id_group)) ∘ f) =
      fun m : Membership => (m.id_user, m.id_group) :=
    funext fun x => by simp [Function.comp, (hf x).1, (hf x).2]
  rw [hcomp]
  exact h3

/-- C9: `accept` always ends with the membership in state `ACTIVE`: the
matching row becomes `ACTIVE` (never any other state), every other row is
untouched, and on an already-`ACTIVE` membership the store is unchanged
(idempotence). -/
theorem accept_always_activates (db : DB) (m : Membership)
    (hc : checkConstraints db = true) (hm : m ∈ db.memberships) :
    ∃ db2 : DB,
      Membership.accept false ⟨db, db⟩ m = (Except.ok (), ⟨db2, db2⟩) ∧
      (⟨m.id_user, m.id_group, MembershipState.ACTIVE⟩ : Membership) ∈
        db2.memberships ∧
      (∀ x ∈ db2.memberships, x.id_user = m.id_user → x.id_group = m.id_group →
        x.state = MembershipState.ACTIVE) ∧
      (∀ x ∈ db2.memberships,
        ¬(x.id_user = m.id_user ∧ x.id_group = m.id_group) →
        x ∈ db.memberships) ∧
      (∀ x ∈ db.memberships,
        ¬(x.id_user = m.id_user ∧ x.id_group = m.id_group) →
        x ∈ db2.memberships) ∧
      (m.state = MembershipState.ACTIVE → db2 = db) := by
  have hf : ∀ x : Membership,
      ((if x.id_user == m.id_user && x.id_group == m.id_group then
          { m with state := MembershipState.ACTIVE } else x) : Membership).id_user =
        x.id_user ∧
      ((if x.id_user == m.id_user && x.id_group == m.id_group then
          { m with state := MembershipState.ACTIVE } else x) : Membership).id_group =
        x.id_group := by
    intro x
    by_cases h : (x.id_user == m.id_user && x.id_group == m.id_group) = true
    · rw [Bool.and_eq_true, beq_iff_eq, beq_iff_eq] at h
      simp [if_pos, h.1, h.2]
    · simp [h]
  have hck := checkConstraints_map_membership_keyfix db _ hf hc
  refine ⟨{ db with memberships := db.memberships.map (fun x =>
      if x.id_user == m.id_user && x.id_group == m.id_group then
        { m with state := MembershipState.ACTIVE } else x) }, ?_, ?_, ?_, ?_, ?_, ?_⟩
  · simp only [Membership.accept]
    rw [commit_ok]
    exact hck
  · exact List.mem_map.mpr ⟨m, hm, by simp⟩
  · intro x hx hxu hxg
    obtain ⟨y, hy, hfy⟩ := List.mem_map.mp hx
    by_cases h : (y.id_user == m.id_user && y.id_group == m.id_group) = true
    · rw [if_pos h] at hfy
      rw [← hfy]
    · rw [if_neg h] at hfy
      subst hfy
      rw [Bool.and_eq_true, beq_iff_eq, beq_iff_eq] at h
      exact absurd (And.intro hxu hxg) h
  · intro x hx hnk
    obtain ⟨y, hy, hfy⟩ := List.mem_map.mp hx
    by_cases h : (y.id_user == m.id_user && y.id_group == m.id_group) = true
    · rw [if_pos h] at hfy
      exact absurd ⟨by rw [← hfy], by rw [← hfy]⟩ hnk
    · rw [if_neg h] at hfy
      subst hfy
      exact hy
  · intro x hx hnk
    refine List.mem_map.mpr ⟨x, hx, ?_⟩
    rw [if_neg]
    intro h
    rw [Bool.and_eq_true, beq_iff_eq, beq_iff_eq] at h
    exact hnk h
  · intro hstate
    have h3 : (db.memberships.map
        (fun mm : Membership => (mm.id_user, mm.id_group))).Nodup :=
      ((checkConstraints_eq_true_iff db).mp hc).2.2.1
    have hinj := List.inj_on_of_nodup_map h3
    have hid : db.memberships.map (fun x =>
        if x.id_user == m.id_user && x.id_group == m.id_group then
          { m with state := MembershipState.ACTIVE } else x) =
        db.memberships.map id := by
      apply List.map_congr_left
      intro x hx
      by_cases h : (x.id_user == m.id_user && x.id_group == m.id_group) = true
      · rw [if_pos h]
        rw [Bool.and_eq_true, beq_iff_eq, beq_iff_eq] at h
        have hxm : x = m := hinj hx hm (by rw [h.1, h.2])
        subst hxm
        simp only [id_eq]
        rw [← hstate]
      · rw [if_neg h]
        rfl
    have hmapid : db.memberships.map (fun x =>
        if x.id_user == m.id_user && x.id_group == m.id_group then
          { m with state := MembershipState.ACTIVE } else x) = db.memberships := by
      rw [hid, List.map_id]
    rw [hmapid]
  
/-- Witness for C9: accepting the pending request in `pendingDB`. -/
theorem accept_always_activates_witness :
    ∃ db2 : DB,
      Membership.accept false ⟨pendingDB, pendingDB⟩
          ⟨1, 11, MembershipState.PENDING_ADMIN⟩ = (Except.ok (), ⟨db2, db2⟩) ∧
      (⟨1, 11, MembershipState.ACTIVE⟩ : Membership) ∈ db2.memberships ∧
      (∀ x ∈ db2.memberships, x.id_user = 1 → x.id_group = 11 →
        x.state = MembershipState.ACTIVE) ∧
      (∀ x ∈ db2.memberships, ¬(x.id_user = 1 ∧ x.id_group = 11) →
        x ∈ pendingDB.memberships) ∧
      (∀ x ∈ pendingDB.memberships, ¬(x.id_user = 1 ∧ x.id_group = 11) →
        x ∈ db2.memberships) ∧
      ((⟨1, 11, MembershipState.PENDING_ADMIN⟩ : Membership).state =
          MembershipState.ACTIVE → db2 = pendingDB) :=
  accept_always_activates pendingDB ⟨1, 11, MembershipState.PENDING_ADMIN⟩
    (by decide) (by decide)

/-- C10: the lookup helpers are total: whenever the underlying `.one()`
query does not find exactly one row — absence or (constraint-violating)
multiplicity alike — `Membership.get` and `GroupAdmin.get` return `None`
instead of propagating the error, and `is_admin` / `is_member` reduce to
booleans over these lookups, so they never raise. -/
theorem lookup_helpers_total (db : DB) (g : Group) (u : Actor) (a : Actor)
    (wp : Bool) :
    ((db.memberships.filter (fun m =>
        m.id_user == u.get_id && m.id_group == g.id)).length ≠ 1 →
      Membership.get db g u = none) ∧
    ((db.admins.filter (fun ga => ga.group_id == g.id &&
        ga.admin_id == a.get_id &&
        ga.admin_type == resolve_admin_type a)).length ≠ 1 →
      GroupAdmin.get db g a = none) ∧
    (Group.is_admin db g a = (GroupAdmin.get db g a).isSome) ∧
    (Group.is_member db g u wp =
      (match Membership.get db g u with
       | some m => if wp then true else m.state == MembershipState.ACTIVE
       | none => false)) := by
  refine ⟨?_, ?_, ?_, ?_⟩
  · intro h
    obtain ⟨e, he⟩ := one_error_of_length_ne_one _ h
    simp only [Membership.get, he]
  · intro h
    obtain ⟨e, he⟩ := one_error_of_length_ne_one _ h
    simp only [GroupAdmin.get, he]
  · cases hga : GroupAdmin.get db g a <;> simp [Group.is_admin, hga]
  · cases hm : Membership.get db g u <;> simp [Group.is_member, hm]

/-- A store violating the primary-key constraints: duplicate membership
and admin rows for `(1, 10)`, on which `.one()` raises
`MultipleResultsFound`. -/
def dupDB : DB :=
  ⟨[], [exOpen],
   [⟨1, 10, MembershipState.ACTIVE⟩, ⟨1, 10, MembershipState.PENDING_ADMIN⟩],
   [⟨10, "User", 1⟩, ⟨10, "User", 1⟩]⟩

/-- Witness for C10: on the duplicate rows of `dupDB` both getters return
`None` instead of an error. -/
theorem lookup_helpers_total_witness :
    Membership.get dupDB exOpen (Actor.user exUser) = none ∧
    GroupAdmin.get dupDB exOpen (Actor.user exUser) = none :=
  ⟨(lookup_helpers_total dupDB exOpen (Actor.user exUser) (Actor.user exUser)
      false).1 (by decide),
   (lookup_helpers_total dupDB exOpen (Actor.user exUser) (Actor.user exUser)
      false).2.1 (by decide)⟩

/-- Witness for C6: creating `"brand-new"` on `exDB` and re-creating it. -/
theorem create_unique_name_witness :
    ∃ (g : Group) (db2 : DB),
      Group.create false ⟨exDB, exDB⟩ "brand-new" "" none none false [] =
        (Except.ok g, ⟨db2, db2⟩) ∧
      g.name = "brand-new" ∧
      Group.get_by_name db2 "brand-new" = Except.ok (some g) ∧
      Group.create false ⟨db2, db2⟩ "brand-new" "" none none false [] =
        (Except.error DBError.IntegrityError, ⟨db2, db2⟩) :=
  create_unique_name exDB "brand-new" (by decide) (by decide) (by decide)

end InvenioGroups
